import Mathlib

/-!
Verification development for the rustsbi bootloader repository.

The definitions below are a shallow embedding of the Rust sources:

* `src/library/rustsbi/src/kernel/elf_parser.rs` (ELF64 parsing and
  segment materialization),
* `src/library/rustsbi/src/virtio/queue.rs` (the legacy split virtqueue),
* `src/library/rustsbi/src/virtio/blk/device.rs` and
  `src/library/rustsbi/src/virtio/blk/memory.rs` (device probe and
  legacy queue installation),
* `src/library/rustsbi/examples/minimal_boot.rs` (entry-point sanity).

Machine integers (`u16`, `u32`, `u64`, `usize`) are represented as `Nat`;
wherever the original code can overflow this is noted next to the
definition.  Byte slices are `List Nat` (each element a byte value),
and guest memory is a function `Nat → Nat` from byte addresses to byte
values.  An overflowing `usize` addition wraps modulo 2^64 as in a
release build, and a Rust panic is a distinguished outcome.  MMIO reads
are abstracted as explicit function parameters (the environment's
response to a volatile load), and an operation that the Rust code
performs by spinning forever is modelled as `Option.none`.
-/

deriving instance DecidableEq for Except

namespace RustSBI

/-! ## Byte-level primitives -/

/-- Little-endian value of the `k` bytes of `data` starting at `off`.
On RV64 (a little-endian target) this is exactly the value an aligned
`repr(C)` field read through a pointer cast at byte offset `off` yields.
Out-of-range bytes read as 0; every use below is guarded by a length
check mirroring the bounds checks of the source. -/
def readLE (data : List Nat) (off : Nat) : Nat → Nat
  | 0 => 0
  | k + 1 => data.getD off 0 + 256 * readLE data (off + 1) k

/-- The sub-slice `&data[off .. off + len]` (shorter if `data` ends first). -/
def sliceBytes (data : List Nat) (off len : Nat) : List Nat :=
  (data.drop off).take len

/-! ## ELF parser (`kernel/elf_parser.rs`) -/

/-- `ELF_MAGIC`: the constant `[0x7F, b'E', b'L', b'F']`. -/
def ELF_MAGIC : List Nat := [0x7F, 0x45, 0x4C, 0x46]

/-- `PT_LOAD`. -/
def PT_LOAD : Nat := 1

/-- `ElfParser::new` (elf_parser.rs lines 52-74).  The first two checks
compare `size_of::<Elf64Ehdr>()` and `size_of::<Elf64Phdr>()` — compile-time
constants of the `repr(C)` layouts, 64 and 56 — against 64 and 56, so they
always pass.  After that the code only requires the slice to hold a full
header (64 bytes) and the 4-byte magic to match. -/
def elfParserNew (data : List Nat) : Except String Unit :=
  let ehdrSize : Nat := 64
  let phdrSize : Nat := 56
  if ehdrSize ≠ 64 then .error "Elf64Ehdr结构体大小与标准不符"
  else if phdrSize ≠ 56 then .error "Elf64Phdr结构体大小与标准不符"
  else if data.length < ehdrSize then .error "ELF文件太小"
  else if sliceBytes data 0 4 ≠ ELF_MAGIC then .error "无效的ELF魔数"
  else .ok ()

/-- `ElfParser::entry_point`: the little-endian `u64` field `e_entry`
at byte offset 0x18 of the header. -/
def entryPoint (data : List Nat) : Nat :=
  readLE data 0x18 8

/-- The fields of `Elf64Phdr` (elf_parser.rs lines 30-41). -/
structure Elf64Phdr where
  p_type : Nat
  p_flags : Nat
  p_offset : Nat
  p_vaddr : Nat
  p_paddr : Nat
  p_filesz : Nat
  p_memsz : Nat
  p_align : Nat
deriving DecidableEq, Repr

/-- The `Elf64Phdr` obtained by the pointer cast at byte offset `off`
(`repr(C)` little-endian field layout: u32, u32, then six u64). -/
def readPhdr (data : List Nat) (off : Nat) : Elf64Phdr :=
  { p_type := readLE data off 4
    p_flags := readLE data (off + 4) 4
    p_offset := readLE data (off + 8) 8
    p_vaddr := readLE data (off + 16) 8
    p_paddr := readLE data (off + 24) 8
    p_filesz := readLE data (off + 32) 8
    p_memsz := readLE data (off + 40) 8
    p_align := readLE data (off + 48) 8 }

/-- The modulus of `usize`/`u64` arithmetic on the RV64 target.  A
release-build Rust addition that overflows wraps modulo this value. -/
def USIZE_MOD : Nat := 2 ^ 64

/-- Outcome of the `load_segments` loop body for one program header.
`panic` is a Rust abort (here: out-of-range bounds handed to the slice
index), `fail` an `Err` early return, `skip` a non-`PT_LOAD` header,
and `load` an invocation of the load callback with
`(p_vaddr, segment bytes, p_memsz)`. -/
inductive SegOutcome where
  | panic
  | fail (msg : String)
  | skip
  | load (vaddr : Nat) (segment : List Nat) (memsz : Nat)
deriving DecidableEq, Repr

/-- The body of the `load_segments` loop for one program header
(elf_parser.rs lines 117-142): non-`PT_LOAD` headers are skipped and
`p_offset` beyond the slice is an error.  `file_offset + file_size` is
a `usize` addition: this model follows release semantics, where it
wraps modulo 2^64 (a debug build would already abort at the addition,
so on the overflowing inputs both profiles abort).  When the wrapped
sum exceeds the slice length the readable size is clamped to
`len - file_offset`; the subsequent slice expression
`&data[file_offset .. file_offset + readable_size]` recomputes the
wrapped end index and panics when it lies before `file_offset` or past
the slice. -/
def handlePhdr (data : List Nat) (phdr : Elf64Phdr) : SegOutcome :=
  if phdr.p_type = PT_LOAD then
    let file_offset := phdr.p_offset
    let file_size := phdr.p_filesz
    if data.length < file_offset then .fail "段文件偏移超出范围"
    else
      let wrapped_sum := (file_offset + file_size) % USIZE_MOD
      let readable_size :=
        if data.length < wrapped_sum then data.length - file_offset
        else file_size
      if 0 < readable_size then
        let end_index := (file_offset + readable_size) % USIZE_MOD
        if end_index < file_offset ∨ data.length < end_index then .panic
        else .load phdr.p_vaddr (sliceBytes data file_offset readable_size) phdr.p_memsz
      else .load phdr.p_vaddr [] phdr.p_memsz
  else .skip

/-! ## Segment materialization (`elf_parser.rs`, `mod memory`) -/

/-- Guest memory, byte address to byte value. -/
def Mem := Nat → Nat

/-- `memory::copy_to_address` (elf_parser.rs lines 158-179): when the
destination is below 0x1000 the source spins forever (`loop {}`), which
the model renders as `none`; otherwise every byte of `src` is stored at
`dst + i`.  (The source applies the same guard to the staging-buffer
pointer `src.as_ptr()`; slice addresses are not part of this byte-level
model — in this system the staging buffer sits at 0x81000000, far above
0x1000.) -/
def copyToAddress (dst : Nat) (src : List Nat) (m : Mem) : Option Mem :=
  if dst < 0x1000 then none
  else some fun a => if dst ≤ a ∧ a < dst + src.length then src.getD (a - dst) 0 else m a

/-- `memory::zero_memory`. -/
def zeroMemory (addr size : Nat) (m : Mem) : Mem :=
  fun a => if addr ≤ a ∧ a < addr + size then 0 else m a

/-- `memory::load_segment` (elf_parser.rs lines 188-204): copy the file
bytes (only when `filesz > 0`), then zero the BSS tail when
`memsz > filesz`. -/
def loadSegment (dst : Nat) (src : List Nat) (memsz : Nat) (m : Mem) : Option Mem :=
  let afterCopy : Option Mem :=
    if 0 < src.length then copyToAddress dst src m else some m
  match afterCopy with
  | none => none
  | some m1 =>
    some (if src.length < memsz then zeroMemory (dst + src.length) (memsz - src.length) m1
          else m1)

/-! ## Virtio error taxonomy (`virtio/error.rs`) -/

/-- The `VirtioError` enumeration. -/
inductive VirtioError where
  | DeviceNotFound
  | InvalidMagic
  | UnsupportedVersion
  | UnsupportedDevice
  | DeviceError
  | InitFailed
  | FeaturesNegotiationFailed
  | QueueSetupFailed
  | ConfigAccessFailed
  | DmaError
  | IoError
  | BufferTooSmall
  | InvalidParam
  | QueueFull
  | QueueEmpty
  | DescriptorChainTooLong
  | InvalidDescriptor
  | Timeout
  | NotReady
  | AlreadyInitialized
  | FileSystemError
  | CryptoError
  | NetworkError
  | BlockError
  | OutOfMemory
  | MemoryNotAligned
  | InternalError
  | UnsupportedOperation
deriving DecidableEq, Repr

/-! ## Virtqueue (`virtio/queue.rs`)

The model keeps the two pieces of state the claims are about: the contents
of the descriptor table (a list of `queue_size` descriptors) and the
bookkeeping fields of the `Virtqueue` struct.  The available and used
rings, and the constant `desc_size = 16` recorded in the struct, play no
role in any claim and are omitted.  A `next` write through
`get_descriptor_ptr` only ever touches the `next` field of one entry,
which `setNext` mirrors. -/

/-- One 16-byte descriptor (`Descriptor`), fields as in the source. -/
structure Descriptor where
  addr : Nat
  len : Nat
  flags : Nat
  next : Nat
deriving DecidableEq, Repr

instance : Inhabited Descriptor := ⟨{ addr := 0, len := 0, flags := 0, next := 0 }⟩

/-- The driver-visible state of `Virtqueue`. -/
structure Virtqueue where
  desc : List Descriptor
  queue_size : Nat
  free_head : Nat
  num_free : Nat
  last_used_idx : Nat
deriving DecidableEq, Repr

/-- Write the `next` field of descriptor `i` (a no-op if `i` is out of
range of the list, which the callers below never allow). -/
def setNext (ds : List Descriptor) (i v : Nat) : List Descriptor :=
  ds.set i { ds.getD i default with next := v }

/-- The descriptor table as initialized by `Virtqueue::new` (queue.rs
lines 95-106): all fields zero, each `next` pointing at the following
entry, and the last entry's `next` = 0. -/
def initDescs (size : Nat) : List Descriptor :=
  (List.range size).map fun i =>
    { addr := 0, len := 0, flags := 0, next := if i = size - 1 then 0 else i + 1 }

/-- `Virtqueue::validate_memory_layout` (queue.rs lines 131-191).
`desc_end > avail_addr` and `avail_end > used_addr` are written as the
equivalent `<` comparisons. -/
def validate_memory_layout (desc_addr avail_addr used_addr queue_size : Nat) :
    Except VirtioError Unit :=
  let expected_desc_addr : Nat := 0x80070000
  let expected_avail_addr := expected_desc_addr + 16 * queue_size
  let expected_used_addr : Nat := 0x80071000
  if desc_addr ≠ expected_desc_addr then .error .MemoryNotAligned
  else if avail_addr ≠ expected_avail_addr then .error .MemoryNotAligned
  else if used_addr ≠ expected_used_addr then .error .MemoryNotAligned
  else if desc_addr % 16 ≠ 0 then .error .MemoryNotAligned
  else if avail_addr % 2 ≠ 0 then .error .MemoryNotAligned
  else if used_addr % 4 ≠ 0 then .error .MemoryNotAligned
  else if avail_addr < desc_addr + 16 * queue_size then .error .MemoryNotAligned
  else if used_addr < avail_addr + 6 + 2 * queue_size then .error .MemoryNotAligned
  else .ok ()

/-- `Virtqueue::new` (queue.rs lines 57-128).  `size` stands for the
`u16` argument (so 0 ≤ size < 2¹⁶; the guard only admits 1..1024). -/
def mkVirtqueue (desc_addr avail_addr used_addr size : Nat) :
    Except VirtioError Virtqueue :=
  if size = 0 ∨ 1024 < size then .error .InvalidParam
  else if desc_addr % 16 ≠ 0 then .error .MemoryNotAligned
  else if avail_addr % 2 ≠ 0 then .error .MemoryNotAligned
  else if used_addr % 4 ≠ 0 then .error .MemoryNotAligned
  else
    match validate_memory_layout desc_addr avail_addr used_addr size with
    | .error e => .error e
    | .ok _ =>
      .ok { desc := initDescs size
            queue_size := size
            free_head := 0
            num_free := size
            last_used_idx := 0 }

/-- The `for i in 0..num` body of `alloc_desc_chain` (queue.rs lines
225-243), with `k+1` iterations left and `current` the running index.
`get_descriptor_ptr` succeeds exactly when the index is below
`queue_size` (the pointer null check can never fire at the fixed table
base 0x80070000); a failure is the loop's `DmaError` early return,
rendered as `none`.  On the last iteration (`k = 0`) the code writes
`next = 0` and leaves `current` unchanged; otherwise it writes
`next = current + 1` and advances. -/
def allocLoop (qs : Nat) : List Descriptor → Nat → Nat → Option (List Descriptor × Nat)
  | ds, current, 0 => some (ds, current)
  | ds, current, k + 1 =>
    if current < qs then
      if k = 0 then some (setNext ds current 0, current)
      else allocLoop qs (setNext ds current (current + 1)) (current + 1) k
    else none

/-- `Virtqueue::alloc_desc_chain` (queue.rs lines 212-250): the guard
`num == 0 || num > queue_size || num_free < num` yields `InvalidParam`;
then the loop runs and, on success, `free_head` becomes
`(current + 1) % queue_size` and `num_free` drops by `num`.
Returns the old `free_head` as the chain head together with the new
queue state.  (A `DmaError` return leaves the partially rewritten
descriptor table behind in the source; no claim depends on that state,
so the model reports only the error.) -/
def alloc_desc_chain (vq : Virtqueue) (num : Nat) : Except VirtioError (Nat × Virtqueue) :=
  if num = 0 ∨ vq.queue_size < num ∨ vq.num_free < num then .error .InvalidParam
  else
    match allocLoop vq.queue_size vq.desc vq.free_head num with
    | none => .error .DmaError
    | some (ds, current) =>
      .ok (vq.free_head,
        { vq with
            desc := ds
            free_head := (current + 1) % vq.queue_size
            num_free := vq.num_free - num })

/-- The `loop` of `free_desc_chain` (queue.rs lines 353-364): starting
at `current` with running `count`, each iteration first increments
`count`; a valid index follows its `next` field and stops when that
field is 0, an out-of-range index stops at once (`get_descriptor_ptr`
fails).  The successor of a valid index is a function of the (fixed)
descriptor table, so a terminating run never repeats a valid index:
it performs at most `qs` valid iterations plus one final invalid one.
Hence with fuel `qs + 2` the walk returns `some` exactly when the
source loop terminates, and `none` exactly when the source spins
forever on a `next` cycle. -/
def freeWalk (qs : Nat) (ds : List Descriptor) : Nat → Nat → Nat → Option (Nat × Nat)
  | _, _, 0 => none
  | current, count, fuel + 1 =>
    if current < qs then
      if (ds.getD current default).next = 0 then some (current, count + 1)
      else freeWalk qs ds (ds.getD current default).next (count + 1) fuel
    else some (current, count + 1)

/-- `Virtqueue::free_desc_chain` (queue.rs lines 348-374): walk to the
end of the chain, link the tail's `next` to `free_head` (skipped when
the walk stopped at an out-of-range index), set `free_head = head` and
add the visited count to `num_free`.  `none` models the source looping
forever. -/
def free_desc_chain (vq : Virtqueue) (head : Nat) : Option Virtqueue :=
  match freeWalk vq.queue_size vq.desc head 0 (vq.queue_size + 2) with
  | none => none
  | some (tailIdx, count) =>
    let ds :=
      if tailIdx < vq.queue_size then setNext vq.desc tailIdx vq.free_head else vq.desc
    some { vq with desc := ds, free_head := head, num_free := vq.num_free + count }

/-- Decidable description of a descriptor chain as laid out in the
table: `i :: rest` is a chain when `i` is a valid index whose `next`
field is 0 for a singleton, or points at the (nonzero) head of the
remaining chain. -/
def isChainB (qs : Nat) (ds : List Descriptor) : List Nat → Bool
  | [] => false
  | [i] => decide (i < qs) && decide ((ds.getD i default).next = 0)
  | i :: j :: rest =>
    decide (i < qs) && decide ((ds.getD i default).next = j) && decide (j ≠ 0) &&
      isChainB qs ds (j :: rest)

/-- Modelled from the spec: the chain length that §4.2 prescribes for
`reclaim(head)` — "walks the `next` chain starting at `head` until the
terminator … The terminator is a descriptor whose `NEXT` flag is
clear" (`NEXT = 1`).  The walk counts the terminator and follows
`next` only while the flag (bit 0) is set; fuel bounds the recursion
the same way as in `freeWalk`.  This definition exists only to be
compared against `free_desc_chain`, which the source terminates on
`next == 0` instead. -/
def specReclaimChainLen (qs : Nat) (ds : List Descriptor) : Nat → Nat → Option Nat
  | _, 0 => none
  | head, fuel + 1 =>
    if head < qs then
      if (ds.getD head default).flags % 2 = 0 then some 1
      else (specReclaimChainLen qs ds (ds.getD head default).next fuel).map (· + 1)
    else none

/-! ## Device probe and legacy queue setup (`virtio/blk/device.rs`,
`virtio/blk/memory.rs`)

MMIO loads are abstracted by explicit functions: `read32 a` is the value
the bus returns for a volatile 32-bit load at physical address `a`, and
`initOk b` tells whether `initialize()` on a device at base `b` reaches
`DRIVER_OK` (its outcome depends on the device's reaction to the whole
status/feature/queue handshake, which only the environment determines). -/

/-- `VIRTIO_DEVICE_ID` register offset (config.rs). -/
def VIRTIO_DEVICE_ID : Nat := 0x008

/-- The candidate base list of `probe_all_devices` (device.rs lines 103-106). -/
def possible_bases : List Nat :=
  [0x10001000, 0x10002000, 0x10003000, 0x10004000,
   0x10005000, 0x10006000, 0x10007000, 0x10008000]

/-- The scan loop of `probe_all_devices` (device.rs lines 111-139):
collect `(base, device_id)` for every base whose magic matches and whose
device id is 0x02 or 0x00, keeping at most 8 entries (`found_count < 8`). -/
def collectDevices (read32 : Nat → Nat) : List Nat → List (Nat × Nat) → List (Nat × Nat)
  | [], found => found
  | base :: rest, found =>
    let magic := read32 base
    let device_id := read32 (base + VIRTIO_DEVICE_ID)
    if magic = 0x74726976 then
      if device_id = 0x02 ∨ device_id = 0x00 then
        if found.length < 8 then collectDevices read32 rest (found ++ [(base, device_id)])
        else collectDevices read32 rest found
      else collectDevices read32 rest found
    else collectDevices read32 rest found

/-- One of the two adoption loops of `probe_all_devices` (device.rs
lines 142-181): take the first recorded device with the wanted id whose
`initialize()` succeeds. -/
def firstWorking (initOk : Nat → Bool) (want : Nat) : List (Nat × Nat) → Option (Nat × Nat)
  | [] => none
  | (base, device_id) :: rest =>
    if device_id = want then
      if initOk base then some (base, device_id) else firstWorking initOk want rest
    else firstWorking initOk want rest

/-- `VirtioBlk::probe_all_devices` (device.rs lines 102-185): scan,
then try block devices (id 0x02) first and fall back to id 0x00
entries; `none` is the "No working Virtio-blk device found" path.
The result carries the adopted base address and its device id. -/
def probe_all_devices (read32 : Nat → Nat) (initOk : Nat → Bool) : Option (Nat × Nat) :=
  let found := collectDevices read32 possible_bases []
  match firstWorking initOk 0x02 found with
  | some r => some r
  | none => firstWorking initOk 0x00 found

/-- `VirtioBlk::allocate_queue_memory` (memory.rs lines 14-48): the
fixed legacy layout plus alignment and overlap checks. -/
def allocate_queue_memory (queue_size : Nat) : Except VirtioError (Nat × Nat × Nat) :=
  let desc_addr : Nat := 0x80070000
  let avail_addr := desc_addr + queue_size * 16
  let used_addr : Nat := 0x80071000
  if desc_addr % 16 ≠ 0 then .error .DmaError
  else if avail_addr % 2 ≠ 0 then .error .DmaError
  else if used_addr % 4 ≠ 0 then .error .DmaError
  else if used_addr < desc_addr + queue_size * 16 then .error .DmaError
  else if used_addr < avail_addr + 6 + queue_size * 2 then .error .DmaError
  else .ok (desc_addr, avail_addr, used_addr)

/-- `VirtioBlk::initialize_virtqueue_legacy` (device.rs lines 322-384),
restricted to the state the claim is about.  `readbackPfn` is the value
the device returns when QUEUE_PFN is read back after the driver's
write.  The source sets `queue_size = 2`, allocates the fixed layout,
writes the hard-coded `pfn = 0x80070` (the expression
`desc_addr >> 12` appears only in a comment), compares the read-back
against it with nothing but diagnostic prints on either outcome, and
then builds the `Virtqueue`.  The returned pair is the PFN value the
driver wrote and the created queue. -/
def initVirtqueueLegacy (readbackPfn : Nat) : Except VirtioError (Nat × Virtqueue) :=
  let queue_size : Nat := 2
  match allocate_queue_memory queue_size with
  | .error e => .error e
  | .ok (desc_addr, avail_addr, used_addr) =>
    let pfn : Nat := 0x80070
    -- the two read-backs of QUEUE_PFN (`readback_pfn`, `actual_pfn`)
    -- both see `readbackPfn`; the source only prints when they differ
    let _ := readbackPfn
    match mkVirtqueue desc_addr avail_addr used_addr queue_size with
    | .ok virtqueue => .ok (pfn, virtqueue)
    | .error e => .error e

/-! ## Entry-point sanity (`examples/minimal_boot.rs`) -/

/-- `is_valid_entry_point` (minimal_boot.rs lines 111-114). -/
def is_valid_entry_point (e : Nat) : Bool :=
  0x80000000 ≤ e && e < 0x90000000

/-- The jump target chosen by `main` (minimal_boot.rs lines 50-55, 70):
an invalid entry point diverts to `jump_to_kernel(0x80400000)` (which
never returns); otherwise control reaches `jump_to_kernel(entry_point)`. -/
def bootJumpTarget (e : Nat) : Nat :=
  if is_valid_entry_point e then e else 0x80400000

/-! ## Concrete fixtures used by witnesses and counterexamples -/

/-- The list `[head, head + 1, …, head + k - 1]`: the indices that
`alloc_desc_chain` hands out when it succeeds. -/
def ascChain (c : Nat) : Nat → List Nat
  | 0 => []
  | k + 1 => c :: ascChain (c + 1) k

/-- A 64-byte header whose magic is correct but whose `e_ident[4]`
(class) is 1 = ELFCLASS32, `e_ident[5]` (data encoding) is
2 = ELFDATA2MSB (big-endian), and whose `e_ehsize` and `e_phentsize`
fields (offsets 0x34, 0x36) are 0. -/
def exC8 : List Nat := [0x7F, 0x45, 0x4C, 0x46, 1, 2] ++ List.replicate 58 0

/-- A freshly created queue of size 2: exactly the value
`mkVirtqueue 0x80070000 0x80070020 0x80071000 2` returns. -/
def vqFresh2 : Virtqueue :=
  { desc := initDescs 2, queue_size := 2, free_head := 0, num_free := 2, last_used_idx := 0 }

/-- The size-2 queue after one single-descriptor allocation
(`alloc_desc_chain vqFresh2 1`): one free descriptor left. -/
def vqC4ex : Virtqueue :=
  { desc := [{ addr := 0, len := 0, flags := 0, next := 0 },
             { addr := 0, len := 0, flags := 0, next := 0 }]
    queue_size := 2, free_head := 1, num_free := 1, last_used_idx := 0 }

/-- A size-2 queue in which descriptor 0 has its NEXT flag (bit 0 of
`flags`) clear while its `next` field still points at descriptor 1
(whose `next` is 0) — precisely the situation after `read_block_real`
builds its two-descriptor request: `set_descriptor(1, …, WRITE, 0)`
leaves descriptor 1 with flags = 2 (NEXT clear) and next = 0, while
descriptor 0 keeps next = 1. -/
def exC5 : Virtqueue :=
  { desc := [{ addr := 0, len := 0, flags := 0, next := 1 },
             { addr := 0, len := 0, flags := 0, next := 0 }]
    queue_size := 2, free_head := 0, num_free := 0, last_used_idx := 0 }

/-- An MMIO bus on which every candidate base has the virtio magic and
every device id register reads 0 (unused slots everywhere). -/
def exProbeRead : Nat → Nat := fun a => if a % 0x1000 = 0 then 0x74726976 else 0

/-- An MMIO bus on which every candidate base has the virtio magic and
every device id register reads 2 (a block device at every base). -/
def exProbeRead2 : Nat → Nat := fun a => if a % 0x1000 = 0 then 0x74726976 else 2

/-- An environment in which `initialize()` succeeds at every base. -/
def alwaysOk : Nat → Bool := fun _ => true

/-- A PT_LOAD header whose file region starts inside a 4-byte slice but
runs past its end: offset 2, file size 5, memory size 9. -/
def phdrC2 : Elf64Phdr :=
  { p_type := 1, p_flags := 0, p_offset := 2, p_vaddr := 0x80200000, p_paddr := 0
    p_filesz := 5, p_memsz := 9, p_align := 0 }

/-- A PT_LOAD header with `p_offset = 1` and `p_filesz = u64::MAX`:
`p_offset + p_filesz` exceeds any slice length, but the 64-bit sum
wraps to 0. -/
def phdrC2ovf : Elf64Phdr :=
  { p_type := 1, p_flags := 0, p_offset := 1, p_vaddr := 0x80200000, p_paddr := 0
    p_filesz := 18446744073709551615, p_memsz := 9, p_align := 0 }

/-- A run of the virtqueue against the sequence of three requests
A = alloc(1), B = alloc(1), C = alloc(2) interleaved as
alloc A, alloc B, free A, alloc C, free B, free C on a queue of size
Q = 3 (every allocation succeeds and every allocated chain is
reclaimed exactly once).  Returns the final `num_free`. -/
def allocFreeSeq3 : Option Nat :=
  match mkVirtqueue 0x80070000 (0x80070000 + 16 * 3) 0x80071000 3 with
  | .error _ => none
  | .ok vq0 =>
  match alloc_desc_chain vq0 1 with
  | .error _ => none
  | .ok (hA, vq1) =>
  match alloc_desc_chain vq1 1 with
  | .error _ => none
  | .ok (hB, vq2) =>
  match free_desc_chain vq2 hA with
  | none => none
  | some vq3 =>
  match alloc_desc_chain vq3 2 with
  | .error _ => none
  | .ok (hC, vq4) =>
  match free_desc_chain vq4 hB with
  | none => none
  | some vq5 =>
  match free_desc_chain vq5 hC with
  | none => none
  | some vq6 => some vq6.num_free

/-! ## Helper lemmas -/

theorem length_setNext (ds : List Descriptor) (i v : Nat) : (setNext ds i v).length = ds.length :=
  List.length_set ds i _

theorem getD_setNext_self (ds : List Descriptor) (i v : Nat) (h : i < ds.length) :
    (setNext ds i v).getD i default = { ds.getD i default with next := v } := by
  unfold setNext
  rw [List.getD_eq_getElem _ _ (by simpa using h), List.getElem_set_self]

theorem getD_setNext_other (ds : List Descriptor) (i v j : Nat) (h : j ≠ i) :
    (setNext ds i v).getD j default = ds.getD j default := by
  unfold setNext
  by_cases hj : j < ds.length
  · rw [List.getD_eq_getElem _ _ (by simpa using hj), List.getD_eq_getElem _ _ hj,
      List.getElem_set_ne (by omega)]
  · rw [List.getD_eq_default _ _ (by simpa using Nat.le_of_not_lt hj),
      List.getD_eq_default _ _ (Nat.le_of_not_lt hj)]

theorem sliceBytes_getD (data : List Nat) (off len i : Nat) (h : i < len) :
    (sliceBytes data off len).getD i 0 = data.getD (off + i) 0 := by
  unfold sliceBytes
  rw [List.getD_eq_getD_get?, List.getD_eq_getD_get?, List.get?_eq_getElem?, List.get?_eq_getElem?,
    List.getElem?_take, if_pos h, List.getElem?_drop]

theorem allocLoop_chain (qs : Nat) :
    ∀ (k : Nat) (ds : List Descriptor) (current : Nat),
      qs ≤ ds.length → 1 ≤ k → current + k ≤ qs →
      ∃ ds', allocLoop qs ds current k = some (ds', current + k - 1) ∧
        ds'.length = ds.length ∧
        isChainB qs ds' (ascChain current k) = true ∧
        ∀ j, j < current → ds'.getD j default = ds.getD j default := by
  intro k
  induction k with
  | zero => intro ds current _ h1 _; omega
  | succ k ih =>
    intro ds current hlen _h1 h2
    have hc : current < qs := by omega
    by_cases hk : k = 0
    · subst hk
      refine ⟨setNext ds current 0, ?_, length_setNext ds current 0, ?_, ?_⟩
      · simp [allocLoop, hc]
      · simp only [ascChain, isChainB, Bool.and_eq_true, decide_eq_true_eq]
        refine ⟨hc, ?_⟩
        rw [getD_setNext_self ds current 0 (by omega)]
      · intro j hj
        exact getD_setNext_other ds current 0 j (by omega)
    · obtain ⟨ds', heq, hl, hchain, hframe⟩ :=
        ih (setNext ds current (current + 1)) (current + 1)
          (by rw [length_setNext]; exact hlen) (by omega) (by omega)
      refine ⟨ds', ?_, ?_, ?_, ?_⟩
      · have hstep : allocLoop qs ds current (k + 1) =
            allocLoop qs (setNext ds current (current + 1)) (current + 1) k := by
          simp [allocLoop, hc, hk]
        rw [hstep, heq]
        have harith : current + 1 + k - 1 = current + (k + 1) - 1 := by omega
        rw [harith]
      · rw [hl, length_setNext]
      · obtain ⟨k', rfl⟩ : ∃ k', k = k' + 1 := ⟨k - 1, by omega⟩
        have hcur : ds'.getD current default =
            (setNext ds current (current + 1)).getD current default :=
          hframe current (by omega)
        rw [getD_setNext_self ds current (current + 1) (by omega)] at hcur
        simp only [ascChain, isChainB, Bool.and_eq_true, decide_eq_true_eq]
        have hchain' := hchain
        simp only [ascChain] at hchain'
        exact ⟨⟨⟨hc, by rw [hcur]⟩, by omega⟩, hchain'⟩
      · intro j hj
        rw [hframe j (by omega), getD_setNext_other ds current (current + 1) j (by omega)]

theorem chain_getLastD_lt (qs : Nat) (ds : List Descriptor) :
    ∀ (L : List Nat), isChainB qs ds L = true → L.getLastD 0 < qs := by
  intro L
  induction L with
  | nil => intro h; simp [isChainB] at h
  | cons i rest ih =>
    intro h
    cases rest with
    | nil => simp only [isChainB, Bool.and_eq_true, decide_eq_true_eq] at h; simpa using h.1
    | cons j rest' =>
      simp only [isChainB, Bool.and_eq_true, decide_eq_true_eq] at h
      have := ih h.2
      simpa [List.getLastD_cons] using this

theorem freeWalk_of_chain (qs : Nat) (ds : List Descriptor) :
    ∀ (L : List Nat), isChainB qs ds L = true →
      ∀ (c fuel : Nat), L.length ≤ fuel →
        freeWalk qs ds (L.headD 0) c fuel = some (L.getLastD 0, c + L.length) := by
  intro L
  induction L with
  | nil => intro h; simp [isChainB] at h
  | cons i rest ih =>
    intro h c fuel hfuel
    cases rest with
    | nil =>
      simp only [isChainB, Bool.and_eq_true, decide_eq_true_eq] at h
      obtain ⟨hi, hnext⟩ := h
      obtain ⟨fuel', rfl⟩ : ∃ f, fuel = f + 1 := ⟨fuel - 1, by simp at hfuel; omega⟩
      show freeWalk qs ds i c (fuel' + 1) = some (i, c + 1)
      simp only [freeWalk]
      rw [if_pos hi, if_pos hnext]
    | cons j rest' =>
      simp only [isChainB, Bool.and_eq_true, decide_eq_true_eq] at h
      obtain ⟨⟨⟨hi, hnext⟩, hj0⟩, hrest⟩ := h
      obtain ⟨fuel', rfl⟩ : ∃ f, fuel = f + 1 := ⟨fuel - 1, by simp at hfuel; omega⟩
      have hlen' : (j :: rest').length ≤ fuel' := by
        simp only [List.length_cons] at hfuel ⊢
        omega
      have ihres := ih hrest (c + 1) fuel' hlen'
      have hstep : freeWalk qs ds i c (fuel' + 1) = freeWalk qs ds j (c + 1) fuel' := by
        simp only [freeWalk]
        rw [if_pos hi, hnext, if_neg hj0]
      have hlast : (i :: j :: rest').getLastD 0 = (j :: rest').getLastD 0 := by
        simp [List.getLastD_cons]
      show freeWalk qs ds i c (fuel' + 1) =
        some ((i :: j :: rest').getLastD 0, c + (i :: j :: rest').length)
      rw [hstep]
      simp only [List.headD] at ihres
      rw [ihres, hlast]
      simp only [List.length_cons]
      congr 2
      omega

theorem validate_ok_elim (d a u s : Nat) (h : validate_memory_layout d a u s = .ok ()) :
    d = 0x80070000 ∧ a = 0x80070000 + 16 * s ∧ u = 0x80071000 := by
  simp only [validate_memory_layout] at h
  split_ifs at h with h1 h2 h3 h4 h5 h6 h7 h8
  refine ⟨?_, ?_, ?_⟩ <;> omega

theorem validate_error_cases (d a u s : Nat) :
    validate_memory_layout d a u s = .ok () ∨
      validate_memory_layout d a u s = .error .MemoryNotAligned := by
  simp only [validate_memory_layout]
  split_ifs <;> simp

theorem mem_collectDevices (read32 : Nat → Nat) :
    ∀ (bs : List Nat) (acc : List (Nat × Nat)) (b id : Nat),
      (b, id) ∈ collectDevices read32 bs acc →
      (b, id) ∈ acc ∨
        (read32 b = 0x74726976 ∧ id = read32 (b + VIRTIO_DEVICE_ID) ∧
          (id = 0x02 ∨ id = 0x00)) := by
  intro bs
  induction bs with
  | nil => intro acc b id h; exact Or.inl h
  | cons base rest ih =>
    intro acc b id h
    simp only [collectDevices] at h
    split_ifs at h with hmagic hid hcap
    · rcases ih _ b id h with hacc | hgood
      · rcases List.mem_append.mp hacc with hl | hr
        · exact Or.inl hl
        · simp only [List.mem_singleton, Prod.mk.injEq] at hr
          obtain ⟨rfl, rfl⟩ := hr
          exact Or.inr ⟨hmagic, rfl, hid⟩
      · exact Or.inr hgood
    · exact ih _ b id h
    · exact ih _ b id h
    · exact ih _ b id h

theorem firstWorking_some (initOk : Nat → Bool) (want : Nat) :
    ∀ (l : List (Nat × Nat)) (b id : Nat),
      firstWorking initOk want l = some (b, id) →
      (b, id) ∈ l ∧ id = want ∧ initOk b = true := by
  intro l
  induction l with
  | nil => intro b id h; simp [firstWorking] at h
  | cons p rest ih =>
    intro b id h
    obtain ⟨pb, pid⟩ := p
    simp only [firstWorking] at h
    split_ifs at h with hw hok
    · simp only [Option.some.injEq, Prod.mk.injEq] at h
      obtain ⟨rfl, rfl⟩ := h
      exact ⟨List.mem_cons_self _ _, hw, hok⟩
    · obtain ⟨hm, hw', hok'⟩ := ih b id h
      exact ⟨List.mem_cons_of_mem _ hm, hw', hok'⟩
    · obtain ⟨hm, hw', hok'⟩ := ih b id h
      exact ⟨List.mem_cons_of_mem _ hm, hw', hok'⟩

/-! ## Claim theorems -/

/-- Claim C1 (confirmed).  For a PT_LOAD header whose file region
`[p_offset, p_offset + p_filesz)` lies within the loaded image and with
`p_memsz ≥ p_filesz`, once segment materialization completes (which it
does whenever the target is not below 0x1000, where `copy_to_address`
spins forever), memory at `vaddr` holds the file region byte for byte
followed by `p_memsz - p_filesz` zero bytes. -/
theorem loadSegment_materializes (data : List Nat) (off filesz memsz vaddr : Nat) (m : Mem)
    (hin : off + filesz ≤ data.length)
    (hsz : filesz ≤ memsz)
    (haddr : 0x1000 ≤ vaddr) :
    ∃ m', loadSegment vaddr (sliceBytes data off filesz) memsz m = some m' ∧
      (∀ i, i < filesz → m' (vaddr + i) = data.getD (off + i) 0) ∧
      (∀ i, filesz ≤ i → i < memsz → m' (vaddr + i) = 0) := by
  have hslen : (sliceBytes data off filesz).length = filesz := by
    unfold sliceBytes
    rw [List.length_take, List.length_drop]
    omega
  have hneg : ¬ vaddr < 0x1000 := Nat.not_lt.mpr haddr
  by_cases h0 : 0 < filesz
  · refine ⟨if filesz < memsz then
        zeroMemory (vaddr + filesz) (memsz - filesz)
          (fun a => if vaddr ≤ a ∧ a < vaddr + filesz then
            (sliceBytes data off filesz).getD (a - vaddr) 0 else m a)
      else
        (fun a => if vaddr ≤ a ∧ a < vaddr + filesz then
          (sliceBytes data off filesz).getD (a - vaddr) 0 else m a), ?_, ?_, ?_⟩
    · simp only [loadSegment, copyToAddress, hslen, if_pos h0, if_neg hneg]
    · intro i hi
      split_ifs with hz
      · unfold zeroMemory
        simp only []
        rw [if_neg (by omega), if_pos (by omega), Nat.add_sub_cancel_left]
        exact sliceBytes_getD data off filesz i hi
      · simp only []
        rw [if_pos (by omega), Nat.add_sub_cancel_left]
        exact sliceBytes_getD data off filesz i hi
    · intro i hfs hms
      split_ifs with hz
      · unfold zeroMemory
        simp only []
        rw [if_pos (by omega)]
      · omega
  · have hz : filesz = 0 := by omega
    subst hz
    refine ⟨if 0 < memsz then zeroMemory (vaddr + 0) (memsz - 0) m else m, ?_, ?_, ?_⟩
    · simp [loadSegment, hslen]
    · intro i hi
      omega
    · intro i hfs hms
      rw [if_pos (by omega)]
      unfold zeroMemory
      rw [if_pos (by omega)]

/-- Witness for C1 at a concrete input: a 6-byte image, segment with
offset 1, file size 2, memory size 4, loaded at 0x2000 over memory that
holds 7 everywhere. -/
theorem loadSegment_materializes_witness :
    ∃ m', loadSegment 0x2000 (sliceBytes [1, 2, 3, 4, 5, 6] 1 2) 4 (fun _ => 7) = some m' ∧
      (∀ i, i < 2 → m' (0x2000 + i) = [1, 2, 3, 4, 5, 6].getD (1 + i) 0) ∧
      (∀ i, 2 ≤ i → i < 4 → m' (0x2000 + i) = 0) :=
  loadSegment_materializes [1, 2, 3, 4, 5, 6] 1 2 4 0x2000 (fun _ => 7)
    (by decide) (by decide) (by decide)

/-- Counterexample to claim C2 as stated: the header `phdrC2ovf`
(`p_offset = 1`, `p_filesz = u64::MAX`) is a PT_LOAD header whose
offset is within the 4-byte slice and whose `p_offset + p_filesz`
exceeds the slice length, yet the loop body does not clamp and yield
the truncated tail: the `usize` sum wraps to 0, the clamp branch is
skipped, and the slice bounds `[1..0]` abort the program (a debug
build aborts one line earlier, at the overflowing addition). -/
theorem handlePhdr_overflow_panics :
    phdrC2ovf.p_type = PT_LOAD ∧
    phdrC2ovf.p_offset ≤ [1, 2, 3, 4].length ∧
    [1, 2, 3, 4].length < phdrC2ovf.p_offset + phdrC2ovf.p_filesz ∧
    handlePhdr [1, 2, 3, 4] phdrC2ovf = .panic := by decide

/-- Claim C2 (corrected).  For a PT_LOAD header whose `p_offset` is
within the slice and whose `p_offset + p_filesz` exceeds the slice
length without overflowing the 64-bit `usize` addition, the per-header
step of `load_segments` clamps the data to the slice length, yields
the truncated tail `data[p_offset..]` to the load callback, and
returns no error for that segment. -/
theorem handlePhdr_clamps (data : List Nat) (phdr : Elf64Phdr)
    (ht : phdr.p_type = PT_LOAD)
    (hoff : phdr.p_offset ≤ data.length)
    (hover : data.length < phdr.p_offset + phdr.p_filesz)
    (hnowrap : phdr.p_offset + phdr.p_filesz < USIZE_MOD) :
    handlePhdr data phdr = .load phdr.p_vaddr (data.drop phdr.p_offset) phdr.p_memsz := by
  have hsum : (phdr.p_offset + phdr.p_filesz) % USIZE_MOD = phdr.p_offset + phdr.p_filesz :=
    Nat.mod_eq_of_lt hnowrap
  have hlenW : data.length < USIZE_MOD := by omega
  simp only [handlePhdr, if_pos ht, if_neg (Nat.not_lt.mpr hoff), hsum, if_pos hover]
  by_cases h0 : 0 < data.length - phdr.p_offset
  · rw [if_pos h0]
    have hend : (phdr.p_offset + (data.length - phdr.p_offset)) % USIZE_MOD = data.length := by
      have harith : phdr.p_offset + (data.length - phdr.p_offset) = data.length := by omega
      rw [harith]
      exact Nat.mod_eq_of_lt hlenW
    rw [hend, if_neg (by omega)]
    have hfull : sliceBytes data phdr.p_offset (data.length - phdr.p_offset) =
        data.drop phdr.p_offset := by
      unfold sliceBytes
      rw [← List.length_drop, List.take_length]
    rw [hfull]
  · rw [if_neg h0]
    have hle : data.length ≤ phdr.p_offset := by omega
    rw [List.drop_eq_nil_of_le hle]

/-- Witness for C2 at a concrete input: a 4-byte slice and the header
`phdrC2` (offset 2, file size 5, no overflow): the callback receives
the truncated tail `[3, 4]` and no error occurs. -/
theorem handlePhdr_clamps_witness :
    handlePhdr [1, 2, 3, 4] phdrC2 =
      .load phdrC2.p_vaddr ([1, 2, 3, 4].drop phdrC2.p_offset) phdrC2.p_memsz :=
  handlePhdr_clamps [1, 2, 3, 4] phdrC2 (by decide) (by decide) (by decide) (by decide)

/-- Claim C3 (code bug).  On a queue of size Q = 3, the request sequence
alloc A = alloc(1), alloc B = alloc(1), free A, alloc C = alloc(2),
free B, free C — every allocation succeeding and every allocated chain
reclaimed exactly once — leaves `num_free` at 4, not at Q = 3.
`alloc_desc_chain` hands out descriptors contiguously from `free_head`
ignoring the linked free list, so alloc C reuses descriptor 1 while
chain B still owns it, and the two reclaim walks together count five
descriptors for the two remaining chains. -/
theorem alloc_free_sequence_breaks_accounting :
    allocFreeSeq3 = some 4 ∧ allocFreeSeq3 ≠ some 3 := by decide

/-- Counterexample to claim C4 as stated: on `vqC4ex` (one free
descriptor) a request for 2 descriptors has `num_free < n`, yet the
error returned is `InvalidParam`, not `QueueFull`. -/
theorem alloc_desc_chain_error_not_QueueFull :
    vqC4ex.num_free < 2 ∧
    alloc_desc_chain vqC4ex 2 = .error VirtioError.InvalidParam ∧
    alloc_desc_chain vqC4ex 2 ≠ .error VirtioError.QueueFull := by decide

/-- Claim C4 (corrected).  `alloc_desc_chain(n)` fails with
`InvalidParam` — not `QueueFull` — whenever `num_free < n`; when
`1 ≤ n`, `num_free ≥ n` and the run `free_head .. free_head + n - 1`
stays inside the table, it returns `free_head` as the head of a chain
of `n` descriptors (linked `next` fields ending in 0) and reduces
`num_free` by exactly `n`.  (When the run would pass the table end the
source instead fails with `DmaError`, so success is not guaranteed by
`num_free ≥ n` alone.) -/
theorem alloc_desc_chain_spec (vq : Virtqueue) (n : Nat) :
    (vq.num_free < n → alloc_desc_chain vq n = .error .InvalidParam) ∧
    (vq.queue_size ≤ vq.desc.length → 1 ≤ n → n ≤ vq.num_free →
      vq.free_head + n ≤ vq.queue_size →
      ∃ vq', alloc_desc_chain vq n = .ok (vq.free_head, vq') ∧
        vq'.num_free = vq.num_free - n ∧
        vq'.free_head = (vq.free_head + n) % vq.queue_size ∧
        isChainB vq.queue_size vq'.desc (ascChain vq.free_head n) = true) := by
  constructor
  · intro h
    have hguard : n = 0 ∨ vq.queue_size < n ∨ vq.num_free < n := Or.inr (Or.inr h)
    simp [alloc_desc_chain, hguard]
  · intro hwf h1 h2 h3
    obtain ⟨ds', heq, hl, hchain, _⟩ :=
      allocLoop_chain vq.queue_size n vq.desc vq.free_head hwf h1 h3
    have hguard : ¬ (n = 0 ∨ vq.queue_size < n ∨ vq.num_free < n) := by omega
    refine ⟨{ vq with
        desc := ds'
        free_head := (vq.free_head + n - 1 + 1) % vq.queue_size
        num_free := vq.num_free - n }, ?_, rfl, ?_, ?_⟩
    · simp only [alloc_desc_chain, if_neg hguard, heq]
    · have harith : vq.free_head + n - 1 + 1 = vq.free_head + n := by omega
      simp only [harith]
    · simpa using hchain

/-- Witness for C4: the failure side on `vqC4ex` (num_free = 1 < 2) and
the success side on the fresh queue `vqFresh2`. -/
theorem alloc_desc_chain_spec_witness :
    alloc_desc_chain vqC4ex 2 = .error .InvalidParam ∧
    ∃ vq', alloc_desc_chain vqFresh2 2 = .ok (vqFresh2.free_head, vq') ∧
      vq'.num_free = vqFresh2.num_free - 2 ∧
      vq'.free_head = (vqFresh2.free_head + 2) % vqFresh2.queue_size ∧
      isChainB vqFresh2.queue_size vq'.desc (ascChain vqFresh2.free_head 2) = true :=
  ⟨(alloc_desc_chain_spec vqC4ex 2).1 (by decide),
   (alloc_desc_chain_spec vqFresh2 2).2 (by decide) (by decide) (by decide) (by decide)⟩

/-- Counterexample to claim C5 as stated: in `exC5`, descriptor 0 has
its NEXT flag clear, so the walk the claim prescribes terminates at
descriptor 0 itself — a chain of length 1 (`specReclaimChainLen` = 1).
The source instead follows the `next` field (terminating on
`next == 0`), visits descriptors 0 and 1, and increases `num_free` by
2, not by 1. -/
theorem free_desc_chain_ignores_next_flag :
    (exC5.desc.getD 0 default).flags % 2 = 0 ∧
    specReclaimChainLen exC5.queue_size exC5.desc 0 (exC5.queue_size + 2) = some 1 ∧
    (free_desc_chain exC5 0).map Virtqueue.num_free = some (exC5.num_free + 2) := by decide

/-- Claim C5 (corrected).  `free_desc_chain(head)` walks the `next`
chain starting at `head` until a descriptor whose `next` FIELD is 0
(the NEXT flag is never consulted), links the `next` of that tail to
`free_head`, sets `free_head = head`, and increases `num_free` by the
number of descriptors walked. -/
theorem free_desc_chain_walks_next_zero (vq : Virtqueue) (head : Nat) (rest : List Nat)
    (hwf : vq.queue_size ≤ vq.desc.length)
    (hchain : isChainB vq.queue_size vq.desc (head :: rest) = true)
    (hfuel : rest.length + 1 ≤ vq.queue_size + 2) :
    ∃ vq', free_desc_chain vq head = some vq' ∧
      vq'.free_head = head ∧
      vq'.num_free = vq.num_free + (rest.length + 1) ∧
      (vq'.desc.getD ((head :: rest).getLastD 0) default).next = vq.free_head := by
  have hwalk := freeWalk_of_chain vq.queue_size vq.desc (head :: rest) hchain 0
    (vq.queue_size + 2) (by simp only [List.length_cons]; omega)
  have htail : (head :: rest).getLastD 0 < vq.queue_size :=
    chain_getLastD_lt vq.queue_size vq.desc (head :: rest) hchain
  simp only [List.headD, List.length_cons] at hwalk
  refine ⟨{ vq with
      desc := setNext vq.desc ((head :: rest).getLastD 0) vq.free_head
      free_head := head
      num_free := vq.num_free + (0 + (rest.length + 1)) }, ?_, rfl, ?_, ?_⟩
  · unfold free_desc_chain
    rw [hwalk]
    simp only [htail, if_true]
  · simp only [Nat.zero_add]
  · simp only []
    rw [getD_setNext_self vq.desc _ vq.free_head (by omega)]

/-- Witness for C5: reclaiming the two-descriptor chain `[0, 1]` of
`exC5` restores both descriptors and links the tail to the old
`free_head`. -/
theorem free_desc_chain_walks_next_zero_witness :
    ∃ vq', free_desc_chain exC5 0 = some vq' ∧
      vq'.free_head = 0 ∧
      vq'.num_free = exC5.num_free + ([1].length + 1) ∧
      (vq'.desc.getD ((0 :: [1]).getLastD 0) default).next = exC5.free_head :=
  free_desc_chain_walks_next_zero exC5 0 [1] (by decide) (by decide) (by decide)

/-- Counterexample to claim C6 as stated: on a bus whose every slot has
the virtio magic and device id 0, the probe adopts base 0x10001000
with device id 0 — an id-0 slot is not skipped but adopted as a
fallback device. -/
theorem probe_adopts_device_id_zero :
    probe_all_devices exProbeRead alwaysOk = some (0x10001000, 0) ∧
    exProbeRead (0x10001000 + VIRTIO_DEVICE_ID) = 0 := ⟨rfl, rfl⟩

/-- Claim C6 (corrected).  A base is adopted only if its magic register
reads 0x74726976, its device id register reads 2 or 0 (not only 2 —
id 0 entries are recorded and adopted as fallback), and its
initialization succeeds; an id-0 base is adopted only when no id-2
candidate initializes successfully. -/
theorem probe_adoption_requires (read32 : Nat → Nat) (initOk : Nat → Bool) (b id : Nat)
    (h : probe_all_devices read32 initOk = some (b, id)) :
    read32 b = 0x74726976 ∧ id = read32 (b + VIRTIO_DEVICE_ID) ∧
      (id = 0x02 ∨ id = 0x00) ∧ initOk b = true ∧
      (id = 0x00 →
        firstWorking initOk 0x02 (collectDevices read32 possible_bases []) = none) := by
  simp only [probe_all_devices] at h
  cases h2 : firstWorking initOk 0x02 (collectDevices read32 possible_bases []) with
  | none =>
    rw [h2] at h
    simp only [] at h
    obtain ⟨hm, hw, hok⟩ := firstWorking_some initOk 0x00 _ b id h
    rcases mem_collectDevices read32 possible_bases [] b id hm with hin | hgood
    · simp at hin
    · exact ⟨hgood.1, hgood.2.1, hgood.2.2, hok, fun _ => rfl⟩
  | some r =>
    obtain ⟨rb, rid⟩ := r
    rw [h2] at h
    simp only [Option.some.injEq, Prod.mk.injEq] at h
    obtain ⟨h3, h4⟩ := h
    subst h3
    subst h4
    obtain ⟨hm, hw, hok⟩ := firstWorking_some initOk 0x02 _ rb rid h2
    rcases mem_collectDevices read32 possible_bases [] rb rid hm with hin | hgood
    · simp at hin
    · exact ⟨hgood.1, hgood.2.1, hgood.2.2, hok,
        fun h0 => absurd (hw.symm.trans h0) (by decide)⟩

/-- Witness for C6: on a bus with a block device (id 2) at every base,
the probe adopts 0x10001000 and all adoption conditions hold. -/
theorem probe_adoption_requires_witness :
    exProbeRead2 0x10001000 = 0x74726976 ∧
      2 = exProbeRead2 (0x10001000 + VIRTIO_DEVICE_ID) ∧
      ((2 : Nat) = 0x02 ∨ (2 : Nat) = 0x00) ∧ alwaysOk 0x10001000 = true ∧
      ((2 : Nat) = 0x00 →
        firstWorking alwaysOk 0x02 (collectDevices exProbeRead2 possible_bases []) = none) :=
  probe_adoption_requires exProbeRead2 alwaysOk 0x10001000 2 rfl

/-- Claim C7 (code bug).  The value written to QUEUE_PFN is the
hard-coded constant 0x80070 (numerically equal to the fixed descriptor
base 0x80070000 shifted right by 12, but not computed from it), and
the QUEUE_PFN read-back has no effect whatsoever on the result: for
every read-back value — including 0, a device rejecting the queue —
`initialize_virtqueue_legacy` returns success and never
`QueueSetupFailed`. -/
theorem initVirtqueueLegacy_ignores_readback :
    (∀ readbackPfn, initVirtqueueLegacy readbackPfn = initVirtqueueLegacy 0x80070) ∧
    initVirtqueueLegacy 0 = .ok (0x80070, vqFresh2) ∧
    initVirtqueueLegacy 0 ≠ .error VirtioError.QueueSetupFailed :=
  ⟨fun _ => rfl, by decide, by decide⟩

/-- Counterexample to claim C8 as stated: `exC8` declares a 32-bit
class, big-endian data, `e_ehsize = 0` and `e_phentsize = 0`, yet
`ElfParser::new` accepts it — none of those fields is inspected. -/
theorem elfParserNew_accepts_invalid_fields :
    exC8.getD 4 0 = 1 ∧ exC8.getD 5 0 = 2 ∧
    readLE exC8 0x34 2 = 0 ∧ readLE exC8 0x36 2 = 0 ∧
    elfParserNew exC8 = .ok () := by decide

/-- Claim C8 (corrected).  `ElfParser::new` succeeds exactly when the
slice holds at least the 64 header bytes and starts with the 4-byte
magic; the class, data-encoding, `e_ehsize` and `e_phentsize` fields
are not examined (the 64/56 size checks compare compile-time constants
and always pass). -/
theorem elfParserNew_ok_iff (data : List Nat) :
    elfParserNew data = .ok () ↔
      64 ≤ data.length ∧ sliceBytes data 0 4 = ELF_MAGIC := by
  simp only [elfParserNew]
  split_ifs with h1 h2 h3 h4
  · simp at h1
  · simp at h2
  · simp
    omega
  · simp
    exact fun _ => h4
  · simp
    exact ⟨by omega, by simpa using h4⟩

/-- Claim C9 (confirmed).  An entry point outside
`[0x80000000, 0x90000000)` makes the loader jump to the build-time
default 0x80400000; a value inside the window is used unchanged. -/
theorem bootJumpTarget_spec (e : Nat) :
    (¬ (0x80000000 ≤ e ∧ e < 0x90000000) → bootJumpTarget e = 0x80400000) ∧
    ((0x80000000 ≤ e ∧ e < 0x90000000) → bootJumpTarget e = e) := by
  constructor <;> intro h <;>
    simp_all [bootJumpTarget, is_valid_entry_point, Bool.and_eq_true, decide_eq_true_eq]

/-- Witness for C9 at the out-of-window entry 0x70000000 and the
in-window entry 0x80200000. -/
theorem bootJumpTarget_spec_witness :
    bootJumpTarget 0x70000000 = 0x80400000 ∧ bootJumpTarget 0x80200000 = 0x80200000 :=
  ⟨(bootJumpTarget_spec 0x70000000).1 (by decide),
   (bootJumpTarget_spec 0x80200000).2 (by decide)⟩

/-- Claim C10 (confirmed).  `Virtqueue::new` succeeds only when
`1 ≤ size ≤ 1024`, `desc_addr = 0x80070000`,
`avail_addr = 0x80070000 + 16·size` and `used_addr = 0x80071000`; for
every other combination it returns `InvalidParam` or
`MemoryNotAligned`; and a successfully created queue has
`free_head = 0`, `num_free = size` and `last_used_idx = 0`. -/
theorem mkVirtqueue_spec (d a u s : Nat) :
    (∀ vq, mkVirtqueue d a u s = .ok vq →
      (1 ≤ s ∧ s ≤ 1024 ∧ d = 0x80070000 ∧ a = 0x80070000 + 16 * s ∧ u = 0x80071000) ∧
      vq.free_head = 0 ∧ vq.num_free = s ∧ vq.last_used_idx = 0) ∧
    (¬ (1 ≤ s ∧ s ≤ 1024 ∧ d = 0x80070000 ∧ a = 0x80070000 + 16 * s ∧ u = 0x80071000) →
      mkVirtqueue d a u s = .error .InvalidParam ∨
      mkVirtqueue d a u s = .error .MemoryNotAligned) := by
  constructor
  · intro vq h
    simp only [mkVirtqueue] at h
    split_ifs at h with h1 h2 h3 h4
    rcases hv : validate_memory_layout d a u s with e | u'
    · rw [hv] at h
      simp at h
    · obtain ⟨hd, ha, hu⟩ := validate_ok_elim d a u s (by cases u'; exact hv)
      rw [hv] at h
      simp only [Except.ok.injEq] at h
      subst h
      exact ⟨⟨by omega, by omega, hd, ha, hu⟩, rfl, rfl, rfl⟩
  · intro hnc
    by_cases h1 : s = 0 ∨ 1024 < s
    · left
      simp [mkVirtqueue, h1]
    · right
      simp only [mkVirtqueue, if_neg h1]
      have hs1 : 1 ≤ s ∧ s ≤ 1024 := by omega
      have haddr : ¬ (d = 0x80070000 ∧ a = 0x80070000 + 16 * s ∧ u = 0x80071000) := by
        intro hc
        exact hnc ⟨hs1.1, hs1.2, hc.1, hc.2.1, hc.2.2⟩
      split_ifs with h2 h3 h4
      · rfl
      · rfl
      · rfl
      · rcases validate_error_cases d a u s with hv | hv
        · exact absurd (validate_ok_elim d a u s hv) haddr
        · rw [hv]

/-- Witness for C10: the success side at the exact legacy layout with
size 2 (result `vqFresh2`) and the error side at all-zero arguments. -/
theorem mkVirtqueue_spec_witness :
    ((1 ≤ 2 ∧ 2 ≤ 1024 ∧ 0x80070000 = 0x80070000 ∧
        0x80070020 = 0x80070000 + 16 * 2 ∧ 0x80071000 = 0x80071000) ∧
      vqFresh2.free_head = 0 ∧ vqFresh2.num_free = 2 ∧ vqFresh2.last_used_idx = 0) ∧
    (mkVirtqueue 0 0 0 0 = .error VirtioError.InvalidParam ∨
      mkVirtqueue 0 0 0 0 = .error VirtioError.MemoryNotAligned) :=
  ⟨(mkVirtqueue_spec 0x80070000 0x80070020 0x80071000 2).1 vqFresh2 (by decide),
   (mkVirtqueue_spec 0 0 0 0).2 (by decide)⟩

end RustSBI
